import Mathlib

/-!
Shallow embedding of the MCP gateway CLI's command/tool orchestration layer
(`src/cli/src/client.ts`, `src/cli/src/runtime/mcp.ts`,
`src/cli/src/commands/executor.ts`, `src/cli/src/agent/tools.ts`,
`src/cli/src/agent/agentRunner.ts`) together with proofs about it.

The HTTP network is modelled as an oracle `net : Nat → FetchOutcome` giving the
outcome of the n-th `fetch` call performed by a client; the JavaScript runtime
primitives `JSON.parse` / `JSON.stringify` are modelled as the abstract
functions of a `JsRuntime` record, since they are not part of this repository.
-/

namespace McpGw

/-- JSON values as produced by the runtime JSON parser (`JSON.parse`). -/
inductive Json where
  | null
  | bool (b : Bool)
  | num (n : Int)
  | str (s : String)
  | arr (elems : List Json)
  | obj (fields : List (String × Json))

mutual

/-- Decidable equality on `Json` (the `deriving` handler does not support the
nested occurrence in `arr`/`obj`). -/
def Json.decEq : (a b : Json) → Decidable (a = b)
  | .null, .null => isTrue rfl
  | .bool a, .bool b =>
    if h : a = b then isTrue (by rw [h]) else isFalse (by simp [h])
  | .num a, .num b =>
    if h : a = b then isTrue (by rw [h]) else isFalse (by simp [h])
  | .str a, .str b =>
    if h : a = b then isTrue (by rw [h]) else isFalse (by simp [h])
  | .arr xs, .arr ys =>
    match Json.decEqList xs ys with
    | isTrue h => isTrue (by rw [h])
    | isFalse h => isFalse (by simp [h])
  | .obj xs, .obj ys =>
    match Json.decEqFields xs ys with
    | isTrue h => isTrue (by rw [h])
    | isFalse h => isFalse (by simp [h])
  | .null, .bool _ => isFalse (by simp)
  | .null, .num _ => isFalse (by simp)
  | .null, .str _ => isFalse (by simp)
  | .null, .arr _ => isFalse (by simp)
  | .null, .obj _ => isFalse (by simp)
  | .bool _, .null => isFalse (by simp)
  | .bool _, .num _ => isFalse (by simp)
  | .bool _, .str _ => isFalse (by simp)
  | .bool _, .arr _ => isFalse (by simp)
  | .bool _, .obj _ => isFalse (by simp)
  | .num _, .null => isFalse (by simp)
  | .num _, .bool _ => isFalse (by simp)
  | .num _, .str _ => isFalse (by simp)
  | .num _, .arr _ => isFalse (by simp)
  | .num _, .obj _ => isFalse (by simp)
  | .str _, .null => isFalse (by simp)
  | .str _, .bool _ => isFalse (by simp)
  | .str _, .num _ => isFalse (by simp)
  | .str _, .arr _ => isFalse (by simp)
  | .str _, .obj _ => isFalse (by simp)
  | .arr _, .null => isFalse (by simp)
  | .arr _, .bool _ => isFalse (by simp)
  | .arr _, .num _ => isFalse (by simp)
  | .arr _, .str _ => isFalse (by simp)
  | .arr _, .obj _ => isFalse (by simp)
  | .obj _, .null => isFalse (by simp)
  | .obj _, .bool _ => isFalse (by simp)
  | .obj _, .num _ => isFalse (by simp)
  | .obj _, .str _ => isFalse (by simp)
  | .obj _, .arr _ => isFalse (by simp)

/-- Decidable equality on lists of `Json` values. -/
def Json.decEqList : (a b : List Json) → Decidable (a = b)
  | [], [] => isTrue rfl
  | [], _ :: _ => isFalse (by simp)
  | _ :: _, [] => isFalse (by simp)
  | x :: xs, y :: ys =>
    match Json.decEq x y with
    | isFalse h1 => isFalse (by simp [h1])
    | isTrue h1 =>
      match Json.decEqList xs ys with
      | isTrue h2 => isTrue (by rw [h1, h2])
      | isFalse h2 => isFalse (by simp [h2])

/-- Decidable equality on `Json` object field lists. -/
def Json.decEqFields : (a b : List (String × Json)) → Decidable (a = b)
  | [], [] => isTrue rfl
  | [], _ :: _ => isFalse (by simp)
  | _ :: _, [] => isFalse (by simp)
  | (k1, v1) :: xs, (k2, v2) :: ys =>
    if hk : k1 = k2 then
      match Json.decEq v1 v2 with
      | isFalse h1 => isFalse (by simp [h1])
      | isTrue h1 =>
        match Json.decEqFields xs ys with
        | isTrue h2 => isTrue (by rw [hk, h1, h2])
        | isFalse h2 => isFalse (by simp [h2])
    else isFalse (by simp [hk])

end

instance : DecidableEq Json := Json.decEq

/-- Decidable equality for thrown-or-returned results. -/
instance {e a : Type} [DecidableEq e] [DecidableEq a] : DecidableEq (Except e a)
  | .ok x, .ok y =>
    if h : x = y then isTrue (by rw [h]) else isFalse (by simp [h])
  | .error x, .error y =>
    if h : x = y then isTrue (by rw [h]) else isFalse (by simp [h])
  | .ok _, .error _ => isFalse (by simp)
  | .error _, .ok _ => isFalse (by simp)

/-- Property access `j[k]` on a parsed JSON value: only objects have fields. -/
def Json.lookup : Json → String → Option Json
  | .obj fields, k => fields.lookup k
  | _, _ => none

/-- JavaScript truthiness of a JSON value. -/
def Json.truthy : Json → Bool
  | .null => false
  | .bool b => b
  | .num n => n != 0
  | .str s => s != ""
  | .arr _ => true
  | .obj _ => true

/-- Whether `typeof v === "object"` holds for a parsed JSON value
(`null` and arrays included, as in JavaScript). -/
def Json.isObjectType : Json → Bool
  | .null => true
  | .arr _ => true
  | .obj _ => true
  | _ => false

/-- `beginsWith s pat` iff `pat` is an initial segment of `s` (character
lists; used to model the string prefix tests). -/
def beginsWith : List Char → List Char → Bool
  | _, [] => true
  | [], _ :: _ => false
  | c :: cs, p :: ps => c = p && beginsWith cs ps

/-- `containsChars s pat` iff `pat` occurs contiguously inside `s`. -/
def containsChars : List Char → List Char → Bool
  | [], pat => beginsWith [] pat
  | c :: cs, pat => beginsWith (c :: cs) pat || containsChars cs pat

/-- `s.includes(pat)` on strings. -/
def strContains (s pat : String) : Bool := containsChars s.data pat.data

/-- `s.startsWith(pre)` on strings. -/
def strStartsWith (s pre : String) : Bool := beginsWith s.data pre.data

/-- Strip leading and trailing whitespace from a character list. -/
def trimChars (l : List Char) : List Char :=
  ((l.dropWhile Char.isWhitespace).reverse.dropWhile Char.isWhitespace).reverse

/-- `s.trim()` on strings. -/
def strTrim (s : String) : String := ⟨trimChars s.data⟩

/-- Split a character list on a separator character. -/
def splitOnChar (sep : Char) : List Char → List (List Char)
  | [] => [[]]
  | c :: cs =>
    if c = sep then [] :: splitOnChar sep cs
    else
      match splitOnChar sep cs with
      | [] => [[c]]
      | h :: t => (c :: h) :: t

/-- `s.split(sep)` for a one-character separator. -/
def strSplitOnChar (sep : Char) (s : String) : List String :=
  (splitOnChar sep s.data).map fun l => ⟨l⟩

/-- The JS runtime primitives used by the client; they are external to the
repository, so the embedding takes them as parameters.  `parse s = none`
models `JSON.parse(s)` throwing a `SyntaxError`; `parseError s` is the message
of that error.  `stringify` models `JSON.stringify(v)` and `pretty` models
`JSON.stringify(v, null, 2)`. -/
structure JsRuntime where
  parse : String → Option Json
  parseError : String → String
  stringify : Json → String
  pretty : Json → String

/-- A JSON-RPC request as built by `McpClient` (`{jsonrpc:"2.0", id?, method,
params?}`); the constant `jsonrpc` field is implicit. -/
structure JsonRpcRequest where
  id : Option Nat
  method : String
  params : Option Json
deriving DecidableEq

/-- One HTTP POST issued by the client: the target URL, the headers from
`buildHeaders`, and the request body (recorded structurally rather than as
its `JSON.stringify` serialization). -/
structure HttpRequest where
  url : String
  headers : List (String × String)
  payload : JsonRpcRequest
deriving DecidableEq

/-- The outcome of one `fetch` call: an HTTP response (any status), a network
failure (`fetch` rejects), or an abort by the timeout controller
(an error named `AbortError`). -/
inductive FetchOutcome where
  | success (status : Nat) (statusText : String) (contentType : Option String)
      (sessionHeader : Option String) (body : String)
  | networkError (message : String)
  | aborted
deriving Repr, DecidableEq

/-- Constructor options of `McpClient`. -/
structure McpClientOptions where
  url : String
  gatewayToken : Option String
  backendToken : Option String
  timeout : Option Nat
deriving Repr, DecidableEq

/-- The mutable state of one `McpClient` instance. -/
structure McpClient where
  url : String
  gatewayToken : Option String
  backendToken : Option String
  timeout : Nat
  requestId : Nat
  sessionId : Option String
deriving Repr, DecidableEq

/-- `options.url.replace(/\/$/, "")`: remove one trailing `/` if present. -/
def stripTrailingSlash (url : String) : String :=
  if url.data.getLast? = some '/' then ⟨url.data.dropLast⟩ else url

/-- The `McpClient` constructor. -/
def mkClient (options : McpClientOptions) : McpClient :=
  { url := stripTrailingSlash options.url
    gatewayToken := options.gatewayToken
    backendToken := options.backendToken
    timeout := options.timeout.getD 30000
    requestId := 0
    sessionId := none }

/-- JS truthiness of an optional string (absent and `""` are falsy). -/
def optTruthy : Option String → Bool
  | some s => s != ""
  | none => false

/-- The header list built by `McpClient.buildHeaders`, as a function of the
three fields it reads. -/
def headersFor (gatewayToken backendToken sessionId : Option String) :
    List (String × String) :=
  [("content-type", "application/json"),
   ("accept", "application/json, text/event-stream"),
   ("user-agent", "mcp-ink-cli/0.1.0")]
  ++ (match gatewayToken with
      | some t => if t = "" then [] else [("x-authorization", "Bearer " ++ t)]
      | none => [])
  ++ (match backendToken with
      | some t => if t = "" then [] else [("authorization", "Bearer " ++ t)]
      | none => [])
  ++ (match sessionId with
      | some s => if s = "" then [] else [("mcp-session-id", s)]
      | none => [])

/-- `McpClient.buildHeaders`. -/
def buildHeaders (st : McpClient) : List (String × String) :=
  headersFor st.gatewayToken st.backendToken st.sessionId

/-- `raw.split(/\r?\n/)`: split on `\n` and strip one trailing `\r` from each
piece. -/
def splitLines (raw : String) : List String :=
  (strSplitOnChar '\n' raw).map fun line =>
    if line.data.getLast? = some '\r' then ⟨line.data.dropLast⟩ else line

/-- `line.slice(5).trim()` applied to a `data:`-prefixed SSE line. -/
def sseDataPayload (line : String) : String := strTrim (line.drop 5)

/-- The synthetic error envelope returned when no SSE `data:` line parses. -/
def sseSyntheticError : Json :=
  .obj [("jsonrpc", .str "2.0"),
        ("error", .obj [("message", .str "No JSON payload found in SSE response")])]

/-- The line scan of `parseSsePayload`: first `data:` line whose non-empty
stripped payload parses as JSON wins; otherwise the synthetic error. -/
def parseSseLines (parse : String → Option Json) : List String → Json
  | [] => sseSyntheticError
  | line :: rest =>
    if strStartsWith line "data:" then
      if sseDataPayload line = "" then parseSseLines parse rest
      else
        match parse (sseDataPayload line) with
        | some j => j
        | none => parseSseLines parse rest
    else parseSseLines parse rest

/-- `parseSsePayload` from `client.ts`. -/
def parseSsePayload (parse : String → Option Json) (raw : String) : Json :=
  parseSseLines parse (splitLines raw)

mutual

/-- JavaScript `String(v)` coercion of a parsed JSON value, as interpolated by
template literals. -/
def Json.jsToString : Json → String
  | .null => "null"
  | .bool b => if b then "true" else "false"
  | .num n => toString n
  | .str s => s
  | .arr xs => String.intercalate "," (Json.jsToStringElems xs)
  | .obj _ => "[object Object]"

/-- Elementwise rendering used by `Array.prototype.toString` (`null` elements
render empty). -/
def Json.jsToStringElems : List Json → List String
  | [] => []
  | .null :: rest => "" :: Json.jsToStringElems rest
  | v :: rest => Json.jsToString v :: Json.jsToStringElems rest

end

/-- `buildHttpError` from `client.ts`, returning the error's message.  When
the body is JSON whose `error` field is truthy and of object type, uses its
`message` field (with `JSON.stringify(error)` as fallback when the field is
absent or `null`); otherwise appends the trimmed body. -/
def buildHttpError (rt : JsRuntime) (status : Nat) (statusText : String)
    (body : String) : String :=
  let fallback :=
    "HTTP " ++ toString status ++ " " ++ statusText ++ "."
      ++ (if body = "" then "" else " " ++ strTrim body)
  match rt.parse body with
  | some json =>
    match json.lookup "error" with
    | some err =>
      if err.truthy && err.isObjectType then
        let message :=
          match err.lookup "message" with
          | some .null => rt.stringify err
          | some (.str s) => s
          | some v => v.jsToString
          | none => rt.stringify err
        "HTTP " ++ toString status ++ " " ++ statusText ++ ": " ++ message
      else fallback
    | none => fallback
  | none => fallback

/-- `response.ok`: status in the 2xx range. -/
def isOk (status : Nat) : Bool := 200 ≤ status && status ≤ 299

/-- The empty-success envelope `{jsonrpc: "2.0"}`. -/
def emptyEnvelope : Json := .obj [("jsonrpc", .str "2.0")]

/-- The message of the timeout error raised on `AbortError`. -/
def timeoutMessage (url : String) (timeout : Nat) : String :=
  "Request to " ++ url ++ " timed out after " ++ toString timeout ++ " ms"

/-- A client instance together with the trace of HTTP requests it has issued. -/
structure ExecCtx where
  st : McpClient
  calls : List HttpRequest
deriving DecidableEq

/-- `McpClient.execute`: issue one `fetch` of `payload` (its outcome given by
the oracle at the index of this fetch), capture the session header, and decode
or raise exactly as the source does.  The returned context carries the updated
client state and the extended request trace; `.error m` models a thrown
`Error` with message `m`. -/
def execute (rt : JsRuntime) (net : Nat → FetchOutcome) (ctx : ExecCtx)
    (payload : JsonRpcRequest) (ignoreErrors : Bool) :
    ExecCtx × Except String Json :=
  let req : HttpRequest := ⟨ctx.st.url, buildHeaders ctx.st, payload⟩
  let calls := ctx.calls ++ [req]
  match net ctx.calls.length with
  | .networkError msg =>
    (⟨ctx.st, calls⟩, if ignoreErrors then .ok emptyEnvelope else .error msg)
  | .aborted =>
    (⟨ctx.st, calls⟩,
      if ignoreErrors then .ok emptyEnvelope
      else .error (timeoutMessage ctx.st.url ctx.st.timeout))
  | .success status statusText contentType sessionHeader body =>
    let st' := { ctx.st with
      sessionId := match sessionHeader with
        | some v => some v
        | none => ctx.st.sessionId }
    (⟨st', calls⟩,
      if !isOk status && !ignoreErrors then
        .error (buildHttpError rt status statusText body)
      else if body = "" then .ok emptyEnvelope
      else if strContains (contentType.getD "") "text/event-stream" then
        .ok (parseSsePayload rt.parse body)
      else
        match rt.parse body with
        | some j => (.ok j)
        | none => if ignoreErrors then .ok emptyEnvelope else .error (rt.parseError body))

/-- `McpClient.nextRequestId`. -/
def nextRequestId (st : McpClient) : McpClient × Nat :=
  ({ st with requestId := st.requestId + 1 }, st.requestId + 1)

/-- The fixed params of the `initialize` request. -/
def initParams : Json :=
  .obj [("protocolVersion", .str "2024-11-05"),
        ("capabilities", .obj []),
        ("clientInfo", .obj [("name", .str "mcp-ink-cli"), ("version", .str "0.1.0")])]

/-- `McpClient.sendInitializedNotification`: a best-effort `execute` with
`ignoreErrors`, whose result (and any residual error) is discarded. -/
def sendInitializedNotification (rt : JsRuntime) (net : Nat → FetchOutcome)
    (ctx : ExecCtx) : ExecCtx :=
  (execute rt net ctx ⟨none, "notifications/initialized", none⟩ true).1

/-- `McpClient.initialize`: send the `initialize` request, then (only on
success) the best-effort `initialized` notification; return the `initialize`
response envelope. -/
def clientInit (rt : JsRuntime) (net : Nat → FetchOutcome) (ctx : ExecCtx) :
    ExecCtx × Except String Json :=
  let stId := nextRequestId ctx.st
  match execute rt net ⟨stId.1, ctx.calls⟩ ⟨some stId.2, "initialize", some initParams⟩ false with
  | (ctx', .ok result) => (sendInitializedNotification rt net ctx', .ok result)
  | (ctx', .error e) => (ctx', .error e)

/-- `McpClient.ping`. -/
def ping (rt : JsRuntime) (net : Nat → FetchOutcome) (ctx : ExecCtx) :
    ExecCtx × Except String Json :=
  let stId := nextRequestId ctx.st
  execute rt net ⟨stId.1, ctx.calls⟩ ⟨some stId.2, "ping", none⟩ false

/-- `McpClient.listTools`. -/
def listTools (rt : JsRuntime) (net : Nat → FetchOutcome) (ctx : ExecCtx) :
    ExecCtx × Except String Json :=
  let stId := nextRequestId ctx.st
  execute rt net ⟨stId.1, ctx.calls⟩ ⟨some stId.2, "tools/list", none⟩ false

/-- `McpClient.callTool name args`. -/
def callTool (rt : JsRuntime) (net : Nat → FetchOutcome) (ctx : ExecCtx)
    (name : String) (args : Json) : ExecCtx × Except String Json :=
  let stId := nextRequestId ctx.st
  execute rt net ⟨stId.1, ctx.calls⟩
    ⟨some stId.2, "tools/call", some (.obj [("name", .str name), ("arguments", args)])⟩ false

/-- A generic driver issuing a sequence of requests (each with its
`ignoreErrors` flag) on one client instance; it subsumes every sequence of
method calls the source performs on a single `McpClient`. -/
def runFrom (rt : JsRuntime) (net : Nat → FetchOutcome) (ctx : ExecCtx) :
    List (JsonRpcRequest × Bool) → ExecCtx
  | [] => ctx
  | (p, ign) :: rest => runFrom rt net (execute rt net ctx p ign).1 rest

/-- A freshly constructed client driven through `payloads`. -/
def runClient (rt : JsRuntime) (net : Nat → FetchOutcome)
    (options : McpClientOptions) (payloads : List (JsonRpcRequest × Bool)) : ExecCtx :=
  runFrom rt net ⟨mkClient options, []⟩ payloads

/-- The `mcp-session-id` response header carried by a fetch outcome. -/
def headerOf : FetchOutcome → Option String
  | .success _ _ _ h _ => h
  | _ => none

/-- `this.sessionId = response.headers.get("mcp-session-id") ?? this.sessionId`,
as a function of one response outcome (errors before a response leave the
session untouched). -/
def stepSession (s : Option String) (o : FetchOutcome) : Option String :=
  match headerOf o with
  | some v => some v
  | none => s

/-- The session identifier held by a client after its first `n` fetches. -/
def sessionAfter (net : Nat → FetchOutcome) : Nat → Option String
  | 0 => none
  | n + 1 => stepSession (sessionAfter net n) (net n)

/-- The execution context shared by the dispatcher and tasks
(`TaskContext` / `CommandExecutionContext`). -/
structure TaskContext where
  gatewayUrl : String
  gatewayBaseUrl : String
  gatewayToken : Option String
  backendToken : Option String
deriving Repr, DecidableEq

/-- `McpExecutionResult` from `runtime/mcp.ts`. -/
structure McpExecutionResult where
  handshake : Json
  response : Json
deriving DecidableEq

/-- `executeMcpCommand` from `runtime/mcp.ts`: construct a fresh client, run
`initialize()` first, then dispatch on the command string (`init` and any
unrecognized command fall through to the handshake).  The issued HTTP request
trace is returned alongside the result; `.error` models a thrown error. -/
def executeMcpCommand (rt : JsRuntime) (net : Nat → FetchOutcome)
    (command : String) (gatewayUrl : String)
    (gatewayToken backendToken : Option String)
    (callOptions : Option (String × Json)) :
    List HttpRequest × Except String McpExecutionResult :=
  match clientInit rt net ⟨mkClient ⟨gatewayUrl, gatewayToken, backendToken, none⟩, []⟩ with
  | (ctx1, .error e) => (ctx1.calls, .error e)
  | (ctx1, .ok handshake) =>
    if command = "ping" then
      match ping rt net ctx1 with
      | (ctx2, .ok r) => (ctx2.calls, .ok ⟨handshake, r⟩)
      | (ctx2, .error e) => (ctx2.calls, .error e)
    else if command = "list" then
      match listTools rt net ctx1 with
      | (ctx2, .ok r) => (ctx2.calls, .ok ⟨handshake, r⟩)
      | (ctx2, .error e) => (ctx2.calls, .error e)
    else if command = "call" then
      match callOptions with
      | none => (ctx1.calls, .error "Tool name and args are required for /call.")
      | some (tool, args) =>
        match callTool rt net ctx1 tool args with
        | (ctx2, .ok r) => (ctx2.calls, .ok ⟨handshake, r⟩)
        | (ctx2, .error e) => (ctx2.calls, .error e)
    else (ctx1.calls, .ok ⟨handshake, handshake⟩)

/-- `formatMcpResult` from `runtime/mcp.ts`. -/
def formatMcpResult (rt : JsRuntime) (command : String)
    (handshake response : Json) (tool : Option String) : List String :=
  let sessionLines :=
    match handshake.lookup "result" with
    | some r =>
      match r.lookup "sessionId" with
      | some v => if v.truthy then ["Session established: " ++ v.jsToString] else []
      | none => []
    | none => []
  sessionLines ++
    (if command = "ping" then ["Ping response:", rt.pretty response]
     else if command = "list" then ["Available tools:", rt.pretty response]
     else if command = "call" then
       ["Tool \"" ++ tool.getD "undefined" ++ "\" response:", rt.pretty response]
     else if command = "init" then ["Initialization payload:", rt.pretty handshake]
     else [])

/-- The result shape `{lines, isError?}` every slash-command path returns. -/
structure SlashResult where
  lines : List String
  isError : Bool
deriving Repr, DecidableEq

/-- The parsed `call` command (`CallCommand` from `chat/commandParser.ts`). -/
structure CallCommand where
  tool : String
  argsJson : Option String
deriving Repr, DecidableEq

/-- `executeCall` from `commands/executor.ts`: validate the tool name before
any network activity, parse the JSON arguments (deferred to execution time),
then delegate to `executeMcpCommand`. -/
def executeCall (rt : JsRuntime) (net : Nat → FetchOutcome)
    (parsed : CallCommand) (context : TaskContext) :
    List HttpRequest × Except String SlashResult :=
  if parsed.tool = "" then
    ([], .ok ⟨["Tool name is required for /call."], true⟩)
  else
    let argsRes : Except String Json :=
      match parsed.argsJson with
      | some s =>
        if s = "" then .ok (.obj [])
        else
          match rt.parse s with
          | some j => .ok j
          | none => .error (rt.parseError s)
      | none => .ok (.obj [])
    match argsRes with
    | .error msg => ([], .ok ⟨["Invalid JSON for args: " ++ msg], true⟩)
    | .ok args =>
      match executeMcpCommand rt net "call" context.gatewayUrl
          context.gatewayToken context.backendToken (some (parsed.tool, args)) with
      | (calls, .error e) => (calls, .error e)
      | (calls, .ok r) =>
        (calls, .ok ⟨formatMcpResult rt "call" r.handshake r.response (some parsed.tool), false⟩)

/-- `executeMcp` from `commands/executor.ts` (the `ping`/`list`/`init`
branches); errors thrown by `executeMcpCommand` are not caught here. -/
def executeMcpSlash (rt : JsRuntime) (net : Nat → FetchOutcome)
    (command : String) (context : TaskContext) :
    List HttpRequest × Except String SlashResult :=
  match executeMcpCommand rt net command context.gatewayUrl
      context.gatewayToken context.backendToken none with
  | (calls, .error e) => (calls, .error e)
  | (calls, .ok r) =>
    (calls, .ok ⟨formatMcpResult rt command r.handshake r.response none, false⟩)

/-- `overviewMessage` from `commands/executor.ts`. -/
def overviewMessage : String :=
  String.intercalate "\n"
    ["Available commands:",
     "  /ping — check MCP gateway connectivity",
     "  /list — list MCP tools",
     "  /call tool=<name> args=\x27<json>\x27 — invoke a tool",
     "  /init — initialise a session",
     "  /service|/import|/user|/diagnostic ... — run registry scripts",
     "Use natural language when ANTHROPIC_API_KEY is set to let Claude decide which tools to call."]

/-- The parsed task command (`TaskCommand` from `chat/commandParser.ts`). -/
structure TaskCommand where
  category : String
  key : String
  rawArgs : List (String × String)
deriving Repr, DecidableEq

/-- The variants produced by the command resolver. -/
inductive ParsedCommand where
  | help
  | ping
  | list
  | init
  | call (tool : String) (argsJson : Option String)
  | task (cmd : TaskCommand)
  | unknown (message : String)
deriving Repr, DecidableEq

/-- Strip one pair of surrounding single quotes from a token value. -/
def stripQuotes (s : String) : String :=
  if s.length ≥ 2 && strStartsWith s "\x27" && s.data.getLast? = some '\x27' then
    ⟨(s.data.drop 1).dropLast⟩
  else s

/-- First `key=value` token for `key`, quote-stripped. -/
def findKeyValue (tokens : List String) (key : String) : Option String :=
  match tokens.find? (fun t => strStartsWith t (key ++ "=")) with
  | some t => some (stripQuotes (t.drop (key.length + 1)))
  | none => none

/-- All `key=value` tokens. -/
def parseKeyValues (tokens : List String) : List (String × String) :=
  tokens.filterMap fun t =>
    match strSplitOnChar '=' t with
    | k :: v :: rest => some (k, stripQuotes (String.intercalate "=" (v :: rest)))
    | _ => none

/-- Modelled from the spec: `parseCommand` lives in `chat/commandParser.ts`,
which is not part of the source snapshot.  Per §4.2 and §8 of the spec it is a
total, side-effect-free parse recognizing the bare commands
`help`/`ping`/`list`/`init`, the call form `call tool=<name> args=\x27<json>\x27`
(JSON argument parsing deferred to execution), the task form (category token
plus task key plus `key=value` pairs over the categories listed in
`overviewMessage`), and an `unknown` variant carrying a human-readable
diagnostic for everything else; a leading slash is accepted. -/
def parseCommand (input : String) : ParsedCommand :=
  let body := if strStartsWith input "/" then input.drop 1 else input
  let tokens := (strSplitOnChar ' ' body).filter (fun t => t ≠ "")
  match tokens with
  | [] => .unknown ("Unknown command: " ++ input)
  | cmd :: rest =>
    if cmd = "help" then .help
    else if cmd = "ping" then .ping
    else if cmd = "list" then .list
    else if cmd = "init" then .init
    else if cmd = "call" then
      .call ((findKeyValue rest "tool").getD "") (findKeyValue rest "args")
    else if cmd = "service" || cmd = "import" || cmd = "user" || cmd = "diagnostic" then
      .task ⟨cmd, rest.headD "", parseKeyValues (rest.drop 1)⟩
    else .unknown ("Unknown command: " ++ input)

/-- The external command description plus captured output returned by the
task-runner collaborator (`runScriptTaskToString`). -/
structure ScriptCommandDesc where
  command : String
  args : List String
deriving Repr, DecidableEq

/-- Captured result of one external task run. -/
structure ScriptOutcome where
  command : ScriptCommandDesc
  stdout : String
  stderr : String
  exitCode : Option Int
deriving Repr, DecidableEq

/-- The `{task, values}` resolution returned by `resolveTaskCommand`
(task descriptors abstracted to their key). -/
structure TaskResolution where
  task : String
  values : List (String × String)
deriving Repr, DecidableEq

/-- The `resolveTaskCommand` collaborator (`chat/taskInterpreter.ts`, not in
the snapshot): either `{error}` or `{task, values}`. -/
def TaskResolver := TaskCommand → Except String TaskResolution

/-- The `runScriptTaskToString` collaborator (external task runner); `.error`
models a thrown error. -/
def TaskRunner := String → String → List (String × String) → TaskContext → Except String ScriptOutcome

/-- The text block the dispatcher shapes from a script outcome
(`executor.ts`, `task` branch). -/
def formatScriptOutcome (result : ScriptOutcome) : String :=
  String.intercalate "\n\n"
    (["$ " ++ result.command.command ++ " " ++ String.intercalate " " result.command.args,
      strTrim result.stdout,
      if result.stderr = "" then "" else "stderr:\n" ++ strTrim result.stderr,
      "exitCode: " ++ toString (result.exitCode.getD 0)].filter
      (fun line => line ≠ "" && strTrim line ≠ ""))

/-- `executeSlashCommand` from `commands/executor.ts`.  Note that the
`ping`/`list`/`init`/`call` arms and the task-runner call are not wrapped in
any try/catch: an `.error` from them propagates to the caller. -/
def executeSlashCommand (rt : JsRuntime) (net : Nat → FetchOutcome)
    (resolver : TaskResolver) (runner : TaskRunner)
    (input : String) (context : TaskContext) :
    List HttpRequest × Except String SlashResult :=
  match parseCommand input with
  | .help => ([], .ok ⟨[overviewMessage], false⟩)
  | .ping => executeMcpSlash rt net "ping" context
  | .list => executeMcpSlash rt net "list" context
  | .init => executeMcpSlash rt net "init" context
  | .call tool argsJson => executeCall rt net ⟨tool, argsJson⟩ context
  | .task cmd =>
    match resolver cmd with
    | .error msg => ([], .ok ⟨[msg], true⟩)
    | .ok resolution =>
      match runner cmd.category resolution.task resolution.values context with
      | .error e => ([], .error e)
      | .ok result => ([], .ok ⟨[formatScriptOutcome result], false⟩)
  | .unknown message => ([], .ok ⟨[message], true⟩)

/-- The three invocation variants of `AgentToolInvocation`. -/
inductive InvocationType where
  | mcp
  | task
  | unknown
deriving Repr, DecidableEq

/-- `AgentToolInvocation` from `agent/tools.ts`. -/
structure AgentToolInvocation where
  type : InvocationType
  name : String
  input : Json
deriving DecidableEq

/-- `mapToolCall` from `agent/tools.ts`. -/
def mapToolCall (name : String) (input : Json) : AgentToolInvocation :=
  if name = "mcp_command" then ⟨.mcp, name, input⟩
  else if name = "registry_task" then ⟨.task, name, input⟩
  else ⟨.unknown, name, input⟩

/-- The `{output, isError?}` result of one tool execution. -/
structure ToolResult where
  output : String
  isError : Bool
deriving Repr, DecidableEq

/-- `String(invocation.input.command || "")`. -/
def mcpCommandOf (input : Json) : String :=
  match input.lookup "command" with
  | some v => if v.truthy then v.jsToString else ""
  | none => ""

/-- `invocation.input.tool ? String(invocation.input.tool) : undefined`. -/
def mcpToolNameOf (input : Json) : Option String :=
  match input.lookup "tool" with
  | some v => if v.truthy then some v.jsToString else none
  | none => none

/-- `invocation.input.args && typeof invocation.input.args === "object"
? invocation.input.args : \x7b\x7d`. -/
def mcpArgsOf (input : Json) : Json :=
  match input.lookup "args" with
  | some v => if v.truthy && v.isObjectType then v else .obj []
  | none => .obj []

/-- The slash-command text of a `registry_task` call, normalized to start
with `/`. -/
def taskCommandTextOf (input : Json) : String :=
  let t := strTrim
    (match input.lookup "command" with
     | some v => if v.truthy then v.jsToString else ""
     | none => "")
  if strStartsWith t "/" then t else "/" ++ t

/-- `executeMappedTool` from `agent/tools.ts`.  The `mcp` branch wraps
`executeMcpCommand` in try/catch and converts failures to
`{output, isError: true}`; the `task` branch calls `executeSlashCommand`
without a try/catch, so its `.error` propagates. -/
def executeMappedTool (rt : JsRuntime) (net : Nat → FetchOutcome)
    (resolver : TaskResolver) (runner : TaskRunner)
    (invocation : AgentToolInvocation) (gatewayUrl : String)
    (context : TaskContext) : List HttpRequest × Except String ToolResult :=
  match invocation.type with
  | .mcp =>
    let command := mcpCommandOf invocation.input
    if command = "" then ([], .ok ⟨"Missing command field", true⟩)
    else
      let callOptions :=
        (mcpToolNameOf invocation.input).map (fun t => (t, mcpArgsOf invocation.input))
      match executeMcpCommand rt net command gatewayUrl
          context.gatewayToken context.backendToken callOptions with
      | (calls, .ok r) =>
        (calls, .ok ⟨rt.pretty (.obj [("handshake", r.handshake), ("response", r.response)]), false⟩)
      | (calls, .error e) => (calls, .ok ⟨e, true⟩)
  | .task =>
    match executeSlashCommand rt net resolver runner
        (taskCommandTextOf invocation.input) context with
    | (calls, .ok result) =>
      (calls, .ok ⟨String.intercalate "\n" result.lines, result.isError⟩)
    | (calls, .error e) => (calls, .error e)
  | .unknown => ([], .ok ⟨"Unknown tool invocation: " ++ invocation.name, true⟩)

/-- Message roles of the agent conversation surface. -/
inductive Role where
  | user
  | assistant
  | system
deriving Repr, DecidableEq

/-- `msg.role === "user"`. -/
def Role.isUser : Role → Bool
  | .user => true
  | _ => false

/-- `msg.role === "assistant"`. -/
def Role.isAssistant : Role → Bool
  | .assistant => true
  | _ => false

/-- `msg.role === "system"`. -/
def Role.isSystem : Role → Bool
  | .system => true
  | _ => false

/-- The wire name of a role. -/
def Role.toName : Role → String
  | .user => "user"
  | .assistant => "assistant"
  | .system => "system"

/-- `AgentMessage` from `agent/agentRunner.ts`. -/
structure AgentMessage where
  role : Role
  content : String
deriving Repr, DecidableEq

/-- A content block of a provider response (`text`, `tool_use`, or any other
block type, which the loop ignores). -/
inductive Block where
  | text (s : String)
  | toolUse (id : String) (name : String) (input : Json)
  | other (kind : String)
deriving DecidableEq

/-- The texts of the `text` blocks, in order
(`outputBlocks.filter(type === "text")`). -/
def textsOf : List Block → List String
  | [] => []
  | .text s :: bs => s :: textsOf bs
  | _ :: bs => textsOf bs

/-- The `(id, name, input)` triples of the `tool_use` blocks, in order
(`outputBlocks.filter(type === "tool_use")`). -/
def toolUsesOf : List Block → List (String × String × Json)
  | [] => []
  | .toolUse id name input :: bs => (id, name, input) :: toolUsesOf bs
  | _ :: bs => toolUsesOf bs

/-- The content of a `ConversationEntry`: free text, a verbatim block list
(the assistant's structured response), or a correlated tool result. -/
inductive EntryContent where
  | text (s : String)
  | blocks (bs : List Block)
  | toolResult (id : String) (output : String)
deriving DecidableEq

/-- One entry of the per-turn conversation sent to the provider. -/
structure ConversationEntry where
  role : String
  content : EntryContent
deriving DecidableEq

/-- One element of `AgentResult.toolOutputs`. -/
structure ToolOutput where
  name : String
  output : String
  isError : Bool
deriving Repr, DecidableEq

/-- `AgentResult` from `agent/agentRunner.ts`, extended with the number of
provider calls made (an observation the claims quantify over). -/
structure AgentResult where
  messages : List AgentMessage
  toolOutputs : List ToolOutput
  providerCalls : Nat
deriving Repr, DecidableEq

/-- `buildSystemPrompt` from `agent/agentRunner.ts`. -/
def buildSystemPrompt : String :=
  "You are an MCP Registry assistant with direct access to CLI tools.\n\nTools available:\n- mcp_command: call MCP gateway commands (ping, list, call, init)\n- registry_task: invoke service management, imports, user management, diagnostics via slash commands.\n\nBehaviours:\n- Use tools whenever the user asks for an action.\n- Always prefer precise tool usage with correct parameters.\n- Summarise results for the user after tool invocations.\n- Never expose secrets or raw environment details."

/-- The system prompt sent on every provider call: the fixed prompt joined
with the history's system messages. -/
def systemPromptOf (history : List AgentMessage) : String :=
  String.intercalate "\n\n"
    (buildSystemPrompt :: (history.filter (fun m => m.role.isSystem)).map (fun m => m.content))

/-- The seed conversation of `runAgentTurn`: the user/assistant history, or a
single synthesized user entry when that is empty. -/
def initialConversation (history : List AgentMessage) : List ConversationEntry :=
  let messages :=
    (history.filter (fun m => m.role.isUser || m.role.isAssistant)).map
      (fun m => ConversationEntry.mk m.role.toName (.text m.content))
  if messages.isEmpty then
    let joined :=
      String.intercalate "\n" ((history.filter (fun m => !m.role.isSystem)).map (fun m => m.content))
    [⟨"user", .text (if joined = "" then "Hello." else joined)⟩]
  else messages

/-- The sequential `for (const call of toolCalls)` body of `runAgentTurn`:
execute each tool call in order (the executor indexed by a global execution
counter), appending the correlated tool-result entry and the tool output; an
executor `.error` aborts the turn (no try/catch in the loop). -/
def runToolCalls (exec : Nat → AgentToolInvocation → Except String ToolResult) :
    List (String × String × Json) → Nat → List ConversationEntry → List ToolOutput →
    Except String (Nat × List ConversationEntry × List ToolOutput)
  | [], execCount, conversation, toolOutputs => .ok (execCount, conversation, toolOutputs)
  | (id, name, input) :: rest, execCount, conversation, toolOutputs =>
    match exec execCount (mapToolCall name input) with
    | .error e => .error e
    | .ok result =>
      runToolCalls exec rest (execCount + 1)
        (conversation ++ [⟨"user", .toolResult id result.output⟩])
        (toolOutputs ++ [⟨name, result.output, result.isError⟩])

/-- The `while (toolIteration < 5)` loop of `runAgentTurn`, driven by the
remaining iteration budget `fuel = 5 - toolIteration` (so the `fuel = 0` arm
is the post-loop `toolIteration >= 5` branch appending the fixed limit
message).  The provider is an abstract collaborator mapping the system prompt
and conversation to the response's content blocks. -/
def agentLoop (provider : String → List ConversationEntry → List Block)
    (exec : Nat → AgentToolInvocation → Except String ToolResult)
    (systemPrompt : String) :
    Nat → List ConversationEntry → Nat → List AgentMessage → List ToolOutput → Nat →
    Except String AgentResult
  | 0, _conversation, _execCount, finalMessages, toolOutputs, providerCalls =>
    .ok ⟨finalMessages ++ [⟨.assistant, "Reached tool usage limit without final response."⟩],
         toolOutputs, providerCalls⟩
  | fuel + 1, conversation, execCount, finalMessages, toolOutputs, providerCalls =>
    let blocks := provider systemPrompt conversation
    let toolCalls := toolUsesOf blocks
    if toolCalls.isEmpty then
      .ok ⟨finalMessages ++ [⟨.assistant, String.intercalate "\n" (textsOf blocks)⟩],
           toolOutputs, providerCalls + 1⟩
    else
      match runToolCalls exec toolCalls execCount
          (conversation ++ [⟨"assistant", .blocks blocks⟩]) toolOutputs with
      | .error e => .error e
      | .ok (execCount', conversation', toolOutputs') =>
        agentLoop provider exec systemPrompt fuel conversation'
          execCount' finalMessages toolOutputs' (providerCalls + 1)

/-- `runAgentTurn` from `agent/agentRunner.ts` (the loop starts at
`toolIteration = 0`, i.e. with a budget of 5 iterations). -/
def runAgentTurn (provider : String → List ConversationEntry → List Block)
    (exec : Nat → AgentToolInvocation → Except String ToolResult)
    (history : List AgentMessage) : Except String AgentResult :=
  agentLoop provider exec (systemPromptOf history) 5 (initialConversation history) 0 [] [] 0

/-! Concrete fixtures used to evaluate the theorems below on explicit
inputs. -/

/-- A JS runtime whose parser accepts nothing (no body in the fixtures below
needs parsing). -/
def rtTriv : JsRuntime :=
  ⟨fun _ => none, fun _ => "Unexpected token", fun _ => "", fun _ => ""⟩

/-- A task context pointing at a fixture gateway. -/
def ctxT : TaskContext := ⟨"http://gw", "http://", none, none⟩

/-- A resolver fixture (never reached by the paths exercised below). -/
def resolverT : TaskResolver := fun _ => .error "no tasks"

/-- A runner fixture (never reached by the paths exercised below). -/
def runnerT : TaskRunner := fun _ _ _ _ => .error "no runner"

/-- A network on which every fetch fails. -/
def netDown : Nat → FetchOutcome := fun _ => .networkError "connect ECONNREFUSED"

/-- A network answering every fetch with `200 OK` and an empty body. -/
def netOkEmpty : Nat → FetchOutcome :=
  fun _ => .success 200 "OK" (some "application/json") none ""

/-- A network answering every fetch with `200 OK`, an empty body, and an
`mcp-session-id: sess-1` response header. -/
def netSess : Nat → FetchOutcome :=
  fun _ => .success 200 "OK" none (some "sess-1") ""

/-- A network aborting the first fetch and answering later ones. -/
def netAbort : Nat → FetchOutcome :=
  fun n => if n = 0 then .aborted else .success 200 "OK" none none ""

/-- A request sequence of the shape `initialize`; `initialized` notification;
`ping`. -/
def payloadsW : List (JsonRpcRequest × Bool) :=
  [(⟨some 1, "initialize", some initParams⟩, false),
   (⟨none, "notifications/initialized", none⟩, true),
   (⟨some 2, "ping", none⟩, false)]

/-- A runtime whose parser accepts exactly the payload `A`. -/
def rtSse : JsRuntime :=
  ⟨fun s => if s = "A" then some (.str "ok") else none,
   fun _ => "Unexpected token", fun _ => "", fun _ => ""⟩

/-- A network answering with an SSE response whose first `data:` line carries
the payload `A`. -/
def netSse : Nat → FetchOutcome :=
  fun _ => .success 200 "OK" (some "text/event-stream") none "data: A\nrest"

/-- A network answering every fetch with `200 OK`, content-type
`text/event-stream`, and an empty body. -/
def netSseEmpty : Nat → FetchOutcome :=
  fun _ => .success 200 "OK" (some "text/event-stream") none ""

/-- The body `\x7b"error":\x7b\x7d\x7d`: JSON with an `error` object that has
no `message` field. -/
def bodyNoMsg : String := "\x7b\"error\":\x7b\x7d\x7d"

/-- A runtime parsing `bodyNoMsg` to its JSON value and stringifying the
empty object back to `\x7b\x7d`, as `JSON.parse`/`JSON.stringify` do. -/
def rtErrNoMsg : JsRuntime :=
  ⟨fun s => if s = bodyNoMsg then some (.obj [("error", .obj [])]) else none,
   fun _ => "Unexpected token",
   fun j => if j = .obj [] then "\x7b\x7d" else "?",
   fun _ => ""⟩

/-- A network answering with `500 Internal Server Error` and body
`bodyNoMsg`. -/
def netErrNoMsg : Nat → FetchOutcome :=
  fun _ => .success 500 "Internal Server Error" (some "application/json") none bodyNoMsg

/-- A runtime parsing the body `FB` to
`\x7b"error":\x7b"message":"forbidden"\x7d\x7d`. -/
def rtForbidden : JsRuntime :=
  ⟨fun s => if s = "FB" then some (.obj [("error", .obj [("message", .str "forbidden")])]) else none,
   fun _ => "Unexpected token", fun _ => "?", fun _ => ""⟩

/-- A network answering with `403 Forbidden` and body `FB`. -/
def netForbidden : Nat → FetchOutcome :=
  fun _ => .success 403 "Forbidden" (some "application/json") none "FB"

/-- The JSON-RPC error envelope some servers return to the `initialized`
notification. -/
def envErrBody : Json :=
  .obj [("jsonrpc", .str "2.0"), ("error", .obj [("code", .num (-1))])]

/-- A runtime parsing the body `EB` to `envErrBody`. -/
def rtErrBody : JsRuntime :=
  ⟨fun s => if s = "EB" then some envErrBody else none,
   fun _ => "Unexpected token", fun _ => "?", fun _ => ""⟩

/-- A network answering every fetch with `400 Bad Request` and the parseable
body `EB`. -/
def netErrBody : Nat → FetchOutcome :=
  fun _ => .success 400 "Bad Request" (some "application/json") none "EB"

/-- A provider requesting the `registry_task` slash command `/ping` on every
turn. -/
def providerCX : String → List ConversationEntry → List Block :=
  fun _ _ => [.toolUse "t1" "registry_task" (.obj [("command", .str "/ping")])]

/-- The executor the agent loop is wired to (`executeMappedTool`) over the
failing network `netDown`. -/
def execCX : Nat → AgentToolInvocation → Except String ToolResult :=
  fun _ inv => (executeMappedTool rtTriv netDown resolverT runnerT inv "http://gw" ctxT).2

/-- A provider answering the first turn with the two text blocks `a`, `b`
and no tool use. -/
def providerTexts : String → List ConversationEntry → List Block :=
  fun _ _ => [.text "a", .text "b"]

/-- A provider requesting an unrecognized tool on every turn. -/
def providerTool : String → List ConversationEntry → List Block :=
  fun _ _ => [.toolUse "t" "x" .null]

/-- A provider answering with one text block. -/
def providerSingle : String → List ConversationEntry → List Block :=
  fun _ _ => [.text "hello"]

/-- An executor that always succeeds. -/
def execOkT : Nat → AgentToolInvocation → Except String ToolResult :=
  fun _ _ => .ok ⟨"r", false⟩

/-- The requests a client aligned with `base` issues for `payloads` when its
first request is the `n`-th fetch of the network: each carries `base`'s URL
and tokens and the session learned from the responses so far. -/
def tracFrom (net : Nat → FetchOutcome) (base : McpClient) :
    Nat → List (JsonRpcRequest × Bool) → List HttpRequest
  | _, [] => []
  | n, (p, _) :: rest =>
    ⟨base.url, headersFor base.gatewayToken base.backendToken (sessionAfter net n), p⟩
      :: tracFrom net base (n + 1) rest

/-! Helper lemmas. -/

theorem beginsWith_append_self : ∀ (pat rest : List Char), beginsWith (pat ++ rest) pat = true
  | [], rest => by cases rest <;> rfl
  | c :: cs, rest => by simp [beginsWith, beginsWith_append_self cs rest]

theorem containsChars_of_beginsWith {s pat : List Char} (h : beginsWith s pat = true) :
    containsChars s pat = true := by
  cases s with
  | nil => simpa [containsChars] using h
  | cons c cs => simp [containsChars, h]

theorem containsChars_append : ∀ (a pat b : List Char),
    containsChars (a ++ (pat ++ b)) pat = true
  | [], pat, b => containsChars_of_beginsWith (beginsWith_append_self pat b)
  | c :: a, pat, b => by simp [containsChars, containsChars_append a pat b]

theorem containsChars_nil : ∀ (s : List Char), containsChars s [] = true
  | [] => rfl
  | c :: cs => by simp [containsChars, beginsWith]

theorem strContains_of_parts (a pat b : String) : strContains (a ++ pat ++ b) pat = true := by
  unfold strContains
  have h : (a ++ pat ++ b).data = a.data ++ (pat.data ++ b.data) := by
    simp [String.data_append]
  rw [h]
  exact containsChars_append _ _ _

theorem strContains_suffix (a pat : String) : strContains (a ++ pat) pat = true := by
  unfold strContains
  rw [String.data_append]
  simpa using containsChars_append a.data pat.data []

theorem strContains_empty_pat (s : String) : strContains s "" = true :=
  containsChars_nil s.data

theorem execute_calls (rt : JsRuntime) (net : Nat → FetchOutcome) (ctx : ExecCtx)
    (p : JsonRpcRequest) (ign : Bool) :
    (execute rt net ctx p ign).1.calls
      = ctx.calls ++ [⟨ctx.st.url, buildHeaders ctx.st, p⟩] := by
  cases h : net ctx.calls.length <;> simp [execute, h]

theorem execute_st_url (rt : JsRuntime) (net : Nat → FetchOutcome) (ctx : ExecCtx)
    (p : JsonRpcRequest) (ign : Bool) :
    (execute rt net ctx p ign).1.st.url = ctx.st.url := by
  cases h : net ctx.calls.length <;> simp [execute, h]

theorem execute_st_gatewayToken (rt : JsRuntime) (net : Nat → FetchOutcome) (ctx : ExecCtx)
    (p : JsonRpcRequest) (ign : Bool) :
    (execute rt net ctx p ign).1.st.gatewayToken = ctx.st.gatewayToken := by
  cases h : net ctx.calls.length <;> simp [execute, h]

theorem execute_st_backendToken (rt : JsRuntime) (net : Nat → FetchOutcome) (ctx : ExecCtx)
    (p : JsonRpcRequest) (ign : Bool) :
    (execute rt net ctx p ign).1.st.backendToken = ctx.st.backendToken := by
  cases h : net ctx.calls.length <;> simp [execute, h]

theorem execute_st_sessionId (rt : JsRuntime) (net : Nat → FetchOutcome) (ctx : ExecCtx)
    (p : JsonRpcRequest) (ign : Bool) :
    (execute rt net ctx p ign).1.st.sessionId
      = stepSession ctx.st.sessionId (net ctx.calls.length) := by
  cases h : net ctx.calls.length with
  | success status statusText ct sh body =>
    cases sh <;> simp [execute, h, stepSession, headerOf]
  | networkError m => simp [execute, h, stepSession, headerOf]
  | aborted => simp [execute, h, stepSession, headerOf]

theorem execute_ignore_ok (rt : JsRuntime) (net : Nat → FetchOutcome) (ctx : ExecCtx)
    (p : JsonRpcRequest) : ∃ j, (execute rt net ctx p true).2 = .ok j := by
  cases h : net ctx.calls.length with
  | networkError m => exact ⟨emptyEnvelope, by simp [execute, h]⟩
  | aborted => exact ⟨emptyEnvelope, by simp [execute, h]⟩
  | success status statusText ct sh body =>
    by_cases hb : body = ""
    · exact ⟨emptyEnvelope, by simp [execute, h, hb]⟩
    · by_cases hc : strContains (ct.getD "") "text/event-stream" = true
      · exact ⟨parseSsePayload rt.parse body, by simp [execute, h, hb, hc]⟩
      · cases hp : rt.parse body with
        | some j => exact ⟨j, by simp [execute, h, hb, hc, hp]⟩
        | none => exact ⟨emptyEnvelope, by simp [execute, h, hb, hc, hp]⟩

/-! Claim C7. -/

/-- C7: a non-best-effort request whose fetch is aborted by the timeout
controller raises an error whose message names the target URL and the
configured timeout duration (30000 ms by default when the constructor gets no
timeout); the client state is unchanged by the abort, so the instance can
issue further requests (e.g. a following fetch answered `2xx` with an empty
body succeeds). -/
theorem request_timeout_behavior (rt : JsRuntime) (net : Nat → FetchOutcome)
    (ctx : ExecCtx) (p : JsonRpcRequest)
    (habort : net ctx.calls.length = .aborted) :
    (execute rt net ctx p false).2
      = .error (timeoutMessage ctx.st.url ctx.st.timeout)
    ∧ strContains (timeoutMessage ctx.st.url ctx.st.timeout) ctx.st.url = true
    ∧ strContains (timeoutMessage ctx.st.url ctx.st.timeout) (toString ctx.st.timeout) = true
    ∧ (execute rt net ctx p false).1.st = ctx.st
    ∧ (execute rt net ctx p false).1.calls = ctx.calls ++ [⟨ctx.st.url, buildHeaders ctx.st, p⟩]
    ∧ (∀ options : McpClientOptions, options.timeout = none → (mkClient options).timeout = 30000)
    ∧ (∀ p2 status statusText ct sh,
        net (ctx.calls.length + 1) = .success status statusText ct sh "" →
        isOk status = true →
        (execute rt net (execute rt net ctx p false).1 p2 false).2 = .ok emptyEnvelope) := by
  refine ⟨by simp [execute, habort], ?_, ?_, by simp [execute, habort],
    execute_calls rt net ctx p false, ?_, ?_⟩
  · have h := strContains_of_parts "Request to " ctx.st.url
      (" timed out after " ++ toString ctx.st.timeout ++ " ms")
    unfold timeoutMessage
    unfold strContains at h ⊢
    simpa [String.data_append] using h
  · have h := strContains_of_parts
      ("Request to " ++ ctx.st.url ++ " timed out after ") (toString ctx.st.timeout) " ms"
    unfold timeoutMessage
    unfold strContains at h ⊢
    simpa [String.data_append] using h
  · intro options hopt
    simp [mkClient, hopt]
  · intro p2 status statusText ct sh hnet2 hok
    have h1 : (execute rt net ctx p false).1
        = (⟨ctx.st, ctx.calls ++ [⟨ctx.st.url, buildHeaders ctx.st, p⟩]⟩ : ExecCtx) := by
      simp [execute, habort]
    have h2 : (ctx.calls ++ [(⟨ctx.st.url, buildHeaders ctx.st, p⟩ : HttpRequest)]).length
        = ctx.calls.length + 1 := by simp
    rw [h1]
    simp [execute, h2, hnet2, hok]

/-- C7 witness: on a network whose first fetch aborts, a fresh default client
raises the timeout error naming its URL and 30000 ms. -/
theorem request_timeout_behavior_witness :
    (execute rtTriv netAbort ⟨mkClient ⟨"http://gw", none, none, none⟩, []⟩
        ⟨some 1, "ping", none⟩ false).2
      = .error (timeoutMessage "http://gw" 30000) :=
  (request_timeout_behavior rtTriv netAbort
    ⟨mkClient ⟨"http://gw", none, none, none⟩, []⟩ ⟨some 1, "ping", none⟩ rfl).1

/-! Claim C8. -/

/-- C8 counterexample: the claim says the notification path always degrades
to the empty-success envelope `\x7bjsonrpc: "2.0"\x7d`.  But on a non-2xx
response (one of the claim's enumerated outcomes) with a parseable JSON body,
the best-effort `execute` skips the HTTP-error throw and returns the parsed
body envelope, which differs from the empty-success envelope. -/
theorem notification_empty_envelope_claim_false :
    (execute rtErrBody netErrBody ⟨mkClient ⟨"http://gw", none, none, none⟩, []⟩
        ⟨none, "notifications/initialized", none⟩ true).2
      = .ok envErrBody
    ∧ envErrBody ≠ emptyEnvelope := by
  constructor
  · decide
  · decide

/-- C8 (amended): the best-effort notification `execute` never raises, and
`initialize()` returns exactly the `initialize` response envelope, unaffected
by the notification; network failure, timeout, and an unparseable non-SSE
body all degrade the notification to the empty-success envelope — but a
non-2xx response with a parseable body yields that parsed envelope instead
(the notification's envelope is discarded either way). -/
theorem notification_swallow_amended (rt : JsRuntime) (net : Nat → FetchOutcome) :
    (∀ ctx p, ∃ j, (execute rt net ctx p true).2 = .ok j)
    ∧ (∀ ctx : ExecCtx, (clientInit rt net ctx).2
        = (execute rt net ⟨(nextRequestId ctx.st).1, ctx.calls⟩
            ⟨some (nextRequestId ctx.st).2, "initialize", some initParams⟩ false).2)
    ∧ (∀ ctx p m, net ctx.calls.length = .networkError m →
        (execute rt net ctx p true).2 = .ok emptyEnvelope)
    ∧ (∀ ctx p, net ctx.calls.length = .aborted →
        (execute rt net ctx p true).2 = .ok emptyEnvelope)
    ∧ (∀ ctx p status statusText ct sh body,
        net ctx.calls.length = .success status statusText ct sh body →
        body ≠ "" →
        strContains (ct.getD "") "text/event-stream" = false →
        rt.parse body = none →
        (execute rt net ctx p true).2 = .ok emptyEnvelope) := by
  refine ⟨fun ctx p => execute_ignore_ok rt net ctx p, ?_, ?_, ?_, ?_⟩
  · intro ctx
    show (match execute rt net ⟨(nextRequestId ctx.st).1, ctx.calls⟩
        ⟨some (nextRequestId ctx.st).2, "initialize", some initParams⟩ false with
      | (ctx', .ok result) => (sendInitializedNotification rt net ctx', Except.ok result)
      | (ctx', .error e) => (ctx', .error e)).2 = _
    cases h : execute rt net ⟨(nextRequestId ctx.st).1, ctx.calls⟩
        ⟨some (nextRequestId ctx.st).2, "initialize", some initParams⟩ false with
    | mk ctx' r =>
      cases r <;> rfl
  · intro ctx p m h
    simp [execute, h]
  · intro ctx p h
    simp [execute, h]
  · intro ctx p status statusText ct sh body h hb hc hp
    simp [execute, h, hb, hc, hp]

/-- C8 witness: on a dead network the notification degrades to the
empty-success envelope. -/
theorem notification_swallow_amended_witness :
    (execute rtTriv netDown ⟨mkClient ⟨"http://gw", none, none, none⟩, []⟩
        ⟨none, "notifications/initialized", none⟩ true).2 = .ok emptyEnvelope :=
  (notification_swallow_amended rtTriv netDown).2.2.1
    ⟨mkClient ⟨"http://gw", none, none, none⟩, []⟩
    ⟨none, "notifications/initialized", none⟩ "connect ECONNREFUSED" rfl

/-! Claim C5. -/

theorem parseSseLines_no_data (parse : String → Option Json) :
    ∀ lines : List String,
    (∀ l ∈ lines, strStartsWith l "data:" = true → parse (sseDataPayload l) = none) →
    parseSseLines parse lines = sseSyntheticError := by
  intro lines
  induction lines with
  | nil => intro _; rfl
  | cons l rest ih =>
    intro h
    unfold parseSseLines
    by_cases hs : strStartsWith l "data:" = true
    · simp only [hs, if_true]
      by_cases hp : sseDataPayload l = ""
      · simp only [hp, if_pos rfl]
        exact ih fun x hx => h x (List.mem_cons_of_mem l hx)
      · simp only [if_neg hp]
        rw [h l (List.mem_cons_self l rest) hs]
        exact ih fun x hx => h x (List.mem_cons_of_mem l hx)
    · simp only [Bool.not_eq_true] at hs
      simp only [hs, Bool.false_eq_true, if_false]
      exact ih fun x hx => h x (List.mem_cons_of_mem l hx)

theorem parseSseLines_first (parse : String → Option Json)
    (hempty : parse "" = none) :
    ∀ (pre : List String) (l : String) (post : List String) (j : Json),
    strStartsWith l "data:" = true → parse (sseDataPayload l) = some j →
    (∀ l2 ∈ pre, strStartsWith l2 "data:" = true → parse (sseDataPayload l2) = none) →
    parseSseLines parse (pre ++ l :: post) = j := by
  intro pre
  induction pre with
  | nil =>
    intro l post j hs hj _
    show parseSseLines parse (l :: post) = j
    unfold parseSseLines
    simp only [hs, if_true]
    have hp : ¬sseDataPayload l = "" := by
      intro h0
      rw [h0, hempty] at hj
      cases hj
    simp only [if_neg hp, hj]
  | cons l2 pre ih =>
    intro l post j hs hj hpre
    show parseSseLines parse (l2 :: (pre ++ l :: post)) = j
    unfold parseSseLines
    by_cases hs2 : strStartsWith l2 "data:" = true
    · simp only [hs2, if_true]
      have hn := hpre l2 (List.mem_cons_self l2 pre) hs2
      by_cases hp : sseDataPayload l2 = ""
      · simp only [hp, if_pos rfl]
        exact ih l post j hs hj fun x hx => hpre x (List.mem_cons_of_mem l2 hx)
      · simp only [if_neg hp, hn]
        exact ih l post j hs hj fun x hx => hpre x (List.mem_cons_of_mem l2 hx)
    · simp only [Bool.not_eq_true] at hs2
      simp only [hs2, Bool.false_eq_true, if_false]
      exact ih l post j hs hj fun x hx => hpre x (List.mem_cons_of_mem l2 hx)

/-- C5 counterexample: the claim covers every response whose content-type
indicates `text/event-stream` and says that when no `data:` line yields
parseable JSON the result is the synthetic error envelope.  But the
empty-body check precedes the event-stream check in `execute`, so a 2xx SSE
response with an empty body — which has no `data:` line at all — decodes to
the empty-success envelope `\x7bjsonrpc: "2.0"\x7d`, not the synthetic
error envelope. -/
theorem sse_empty_body_claim_false :
    (execute rtTriv netSseEmpty ⟨mkClient ⟨"http://gw", none, none, none⟩, []⟩
        ⟨some 1, "ping", none⟩ false).2 = .ok emptyEnvelope
    ∧ emptyEnvelope ≠ sseSyntheticError
    ∧ (∀ l ∈ splitLines "", strStartsWith l "data:" = false) := by
  exact ⟨by decide, by decide, by decide⟩

/-- C5 (amended): for a decoded response whose content-type indicates
`text/event-stream`, a non-empty body is decoded by `parseSsePayload`: the
first `data:` line whose stripped payload parses as JSON yields the result,
and if no `data:` line yields parseable JSON the result is the synthetic
error envelope with the fixed diagnostic message; an empty body, however, is
answered with the empty-success envelope before the event-stream check is
reached (the hypothesis `parse "" = none` reflects that `JSON.parse("")`
throws). -/
theorem sse_decoding_amended (rt : JsRuntime) (net : Nat → FetchOutcome) (ctx : ExecCtx)
    (p : JsonRpcRequest) (ign : Bool)
    (status : Nat) (statusText : String) (ct sh : Option String) (body : String)
    (hnet : net ctx.calls.length = .success status statusText ct sh body)
    (hok : isOk status = true)
    (hct : strContains (ct.getD "") "text/event-stream" = true)
    (hempty : rt.parse "" = none) :
    (body ≠ "" → (execute rt net ctx p ign).2 = .ok (parseSsePayload rt.parse body))
    ∧ (body = "" → (execute rt net ctx p ign).2 = .ok emptyEnvelope)
    ∧ ((∀ l ∈ splitLines body, strStartsWith l "data:" = true →
          rt.parse (sseDataPayload l) = none) →
        parseSsePayload rt.parse body = sseSyntheticError)
    ∧ (∀ (pre : List String) (l : String) (post : List String) (j : Json),
        splitLines body = pre ++ l :: post →
        strStartsWith l "data:" = true → rt.parse (sseDataPayload l) = some j →
        (∀ l2 ∈ pre, strStartsWith l2 "data:" = true → rt.parse (sseDataPayload l2) = none) →
        parseSsePayload rt.parse body = j) := by
  refine ⟨?_, ?_, ?_, ?_⟩
  · intro hbody
    simp [execute, hnet, hok, hbody, hct]
  · intro hbody
    subst hbody
    simp [execute, hnet, hok]
  · intro h
    exact parseSseLines_no_data rt.parse (splitLines body) h
  · intro pre l post j hsplit hs hj hpre
    unfold parseSsePayload
    rw [hsplit]
    exact parseSseLines_first rt.parse hempty pre l post j hs hj hpre

/-- C5 witness: an SSE response whose first `data:` line parses decodes to
that payload, both through `execute` and through the line scan. -/
theorem sse_decoding_amended_witness :
    (execute rtSse netSse ⟨mkClient ⟨"http://gw", none, none, none⟩, []⟩
        ⟨some 1, "ping", none⟩ false).2 = .ok (parseSsePayload rtSse.parse "data: A\nrest")
    ∧ parseSsePayload rtSse.parse "data: A\nrest" = .str "ok" := by
  have h := sse_decoding_amended rtSse netSse ⟨mkClient ⟨"http://gw", none, none, none⟩, []⟩
    ⟨some 1, "ping", none⟩ false 200 "OK" (some "text/event-stream") none "data: A\nrest"
    rfl rfl (by decide) rfl
  refine ⟨h.1 (by decide), ?_⟩
  exact h.2.2.2 [] "data: A" ["rest"] (.str "ok") (by decide) (by decide) rfl
    (by intro l2 h2; cases h2)

/-! Claim C6. -/

/-- C6 counterexample: the claim's fallback clause says that when the body is
not JSON carrying an error object with a `message` field, the raised message
includes the raw body text.  But for the body `\x7b"error":\x7b\x7dx7d`-like
input `bodyNoMsg` (an error object with no `message` field) the code uses
`JSON.stringify` of the error object, and the raised message does not contain
the body text. -/
theorem http_error_raw_body_claim_false :
    (execute rtErrNoMsg netErrNoMsg ⟨mkClient ⟨"http://gw", none, none, none⟩, []⟩
        ⟨some 1, "ping", none⟩ false).2
      = .error "HTTP 500 Internal Server Error: \x7b\x7d"
    ∧ strContains "HTTP 500 Internal Server Error: \x7b\x7d" bodyNoMsg = false
    ∧ rtErrNoMsg.parse bodyNoMsg = some (.obj [("error", .obj [])])
    ∧ (Json.obj [("error", .obj [])]).lookup "error" = some (.obj [])
    ∧ (Json.obj []).lookup "message" = none := by
  refine ⟨by decide, by decide, by decide, by decide, by decide⟩

/-- C6 (amended): a non-best-effort request answered non-2xx raises
`buildHttpError`; when the JSON body carries an error object with a string
`message`, the raised message contains the status code and that string; when
the error object lacks a `message` field, the message instead embeds
`JSON.stringify` of the error object; when the body is not JSON at all, the
message contains the status code and the trimmed body text. -/
theorem http_error_message_amended (rt : JsRuntime) (net : Nat → FetchOutcome)
    (ctx : ExecCtx) (p : JsonRpcRequest)
    (status : Nat) (statusText : String) (ct sh : Option String) (body : String)
    (hnet : net ctx.calls.length = .success status statusText ct sh body)
    (hnok : isOk status = false) :
    (execute rt net ctx p false).2 = .error (buildHttpError rt status statusText body)
    ∧ (∀ json errObj m, rt.parse body = some json → json.lookup "error" = some errObj →
        errObj.truthy = true → errObj.isObjectType = true →
        errObj.lookup "message" = some (.str m) →
        strContains (buildHttpError rt status statusText body) (toString status) = true
        ∧ strContains (buildHttpError rt status statusText body) m = true)
    ∧ (∀ json errObj, rt.parse body = some json → json.lookup "error" = some errObj →
        errObj.truthy = true → errObj.isObjectType = true →
        errObj.lookup "message" = none →
        buildHttpError rt status statusText body
          = "HTTP " ++ toString status ++ " " ++ statusText ++ ": " ++ rt.stringify errObj)
    ∧ (rt.parse body = none →
        strContains (buildHttpError rt status statusText body) (toString status) = true
        ∧ strContains (buildHttpError rt status statusText body) (strTrim body) = true) := by
  refine ⟨by simp [execute, hnet, hnok], ?_, ?_, ?_⟩
  · intro json errObj m hparse herr htr hobj hmsg
    have hmessage : buildHttpError rt status statusText body
        = "HTTP " ++ toString status ++ " " ++ statusText ++ ": " ++ m := by
      simp [buildHttpError, hparse, herr, htr, hobj, hmsg]
    rw [hmessage]
    constructor
    · have h := strContains_of_parts "HTTP " (toString status)
        (" " ++ statusText ++ ": " ++ m)
      unfold strContains at h ⊢
      simpa [String.data_append] using h
    · have h := strContains_suffix ("HTTP " ++ toString status ++ " " ++ statusText ++ ": ") m
      unfold strContains at h ⊢
      simpa [String.data_append] using h
  · intro json errObj hparse herr htr hobj hmsg
    simp [buildHttpError, hparse, herr, htr, hobj, hmsg]
  · intro hparse
    have hmessage : buildHttpError rt status statusText body
        = "HTTP " ++ toString status ++ " " ++ statusText ++ "."
          ++ (if body = "" then "" else " " ++ strTrim body) := by
      simp [buildHttpError, hparse]
    rw [hmessage]
    constructor
    · have h := strContains_of_parts "HTTP " (toString status)
        (" " ++ statusText ++ "." ++ (if body = "" then "" else " " ++ strTrim body))
      unfold strContains at h ⊢
      simpa [String.data_append] using h
    · by_cases hb : body = ""
      · have htrim : strTrim body = "" := by rw [hb]; rfl
        rw [htrim]
        exact strContains_empty_pat _
      · have h := strContains_suffix
          ("HTTP " ++ toString status ++ " " ++ statusText ++ "." ++ " ") (strTrim body)
        simp only [if_neg hb]
        unfold strContains at h ⊢
        simpa [String.data_append] using h

/-- C6 witness: a `403 Forbidden` response with body parsing to
`\x7b"error":\x7b"message":"forbidden"\x7d\x7d` raises a message containing
`403` and `forbidden`. -/
theorem http_error_message_amended_witness :
    strContains (buildHttpError rtForbidden 403 "Forbidden" "FB") (toString 403) = true
    ∧ strContains (buildHttpError rtForbidden 403 "Forbidden" "FB") "forbidden" = true :=
  (http_error_message_amended rtForbidden netForbidden
      ⟨mkClient ⟨"http://gw", none, none, none⟩, []⟩ ⟨some 1, "ping", none⟩
      403 "Forbidden" (some "application/json") none "FB" rfl rfl).2.1
    (.obj [("error", .obj [("message", .str "forbidden")])])
    (.obj [("message", .str "forbidden")]) "forbidden" rfl rfl rfl rfl rfl

/-! Claims C1 and C10: the request trace of one client instance. -/

theorem sessionAfter_succ (net : Nat → FetchOutcome) (n : Nat) :
    sessionAfter net (n + 1) = stepSession (sessionAfter net n) (net n) := rfl

theorem runFrom_trace (rt : JsRuntime) (net : Nat → FetchOutcome) (base : McpClient) :
    ∀ (ps : List (JsonRpcRequest × Bool)) (ctx : ExecCtx),
    ctx.st.url = base.url → ctx.st.gatewayToken = base.gatewayToken →
    ctx.st.backendToken = base.backendToken →
    ctx.st.sessionId = sessionAfter net ctx.calls.length →
    (runFrom rt net ctx ps).calls = ctx.calls ++ tracFrom net base ctx.calls.length ps := by
  intro ps
  induction ps with
  | nil =>
    intro ctx _ _ _ _
    simp [runFrom, tracFrom]
  | cons pr rest ih =>
    obtain ⟨p, ign⟩ := pr
    intro ctx hu hg hb hs
    have hcalls := execute_calls rt net ctx p ign
    have hlen : (execute rt net ctx p ign).1.calls.length = ctx.calls.length + 1 := by
      rw [hcalls]; simp
    have hstep := ih (execute rt net ctx p ign).1
      (by rw [execute_st_url]; exact hu)
      (by rw [execute_st_gatewayToken]; exact hg)
      (by rw [execute_st_backendToken]; exact hb)
      (by rw [execute_st_sessionId, hs, hlen, sessionAfter_succ])
    show (runFrom rt net (execute rt net ctx p ign).1 rest).calls
      = ctx.calls ++ tracFrom net base ctx.calls.length ((p, ign) :: rest)
    rw [hstep, hcalls]
    have hhd : (⟨ctx.st.url, buildHeaders ctx.st, p⟩ : HttpRequest)
        = ⟨base.url, headersFor base.gatewayToken base.backendToken
            (sessionAfter net ctx.calls.length), p⟩ := by
      rw [buildHeaders, hu, hg, hb, hs]
    simp only [List.length_append, List.length_singleton, tracFrom]
    rw [← hhd]
    simp

theorem tracFrom_getElem (net : Nat → FetchOutcome) (base : McpClient) :
    ∀ (ps : List (JsonRpcRequest × Bool)) (n k : Nat)
      (hk : k < (tracFrom net base n ps).length),
    (tracFrom net base n ps)[k].url = base.url
    ∧ (tracFrom net base n ps)[k].headers
        = headersFor base.gatewayToken base.backendToken (sessionAfter net (n + k)) := by
  intro ps
  induction ps with
  | nil =>
    intro n k hk
    simp [tracFrom] at hk
  | cons pr rest ih =>
    obtain ⟨p, ign⟩ := pr
    intro n k hk
    cases k with
    | zero => simp [tracFrom]
    | succ k =>
      have hk2 : k < (tracFrom net base (n + 1) rest).length := by
        simp only [tracFrom, List.length_cons] at hk
        omega
      have ihk := ih (n + 1) k hk2
      constructor
      · simp only [tracFrom, List.getElem_cons_succ]
        exact ihk.1
      · simp only [tracFrom, List.getElem_cons_succ]
        rw [show n + (k + 1) = n + 1 + k from by omega]
        exact ihk.2

theorem sessionAfter_of_header (net : Nat → FetchOutcome) (i : Nat) (v : String)
    (hheader : headerOf (net i) = some v)
    (hlater : ∀ j, i < j → headerOf (net j) = none ∨ headerOf (net j) = some v) :
    ∀ k, i < k → sessionAfter net k = some v := by
  intro k
  induction k with
  | zero => intro h; omega
  | succ k ih =>
    intro hik
    by_cases hik2 : i < k
    · rw [sessionAfter_succ]
      rcases hlater k hik2 with h | h <;> simp [stepSession, h, ih hik2]
    · have hki : k = i := by omega
      subst hki
      rw [sessionAfter_succ]
      simp [stepSession, hheader]

theorem sessionAfter_from_response (net : Nat → FetchOutcome) :
    ∀ (n : Nat) (w : String), sessionAfter net n = some w →
    ∃ m, m < n ∧ headerOf (net m) = some w := by
  intro n
  induction n with
  | zero => intro w h; cases h
  | succ n ih =>
    intro w h
    rw [sessionAfter_succ] at h
    unfold stepSession at h
    cases hh : headerOf (net n) with
    | some v =>
      rw [hh] at h
      refine ⟨n, by omega, ?_⟩
      rw [hh]
      exact h
    | none =>
      rw [hh] at h
      obtain ⟨m, hm, hmh⟩ := ih w h
      exact ⟨m, by omega, hmh⟩

theorem mem_headersFor_session (gt bt : Option String) (v : String) (hv : v ≠ "") :
    ("mcp-session-id", v) ∈ headersFor gt bt (some v) := by
  unfold headersFor
  simp [hv]

/-- C1: once a response carrying the session header with a non-empty
identifier `v` has been received (and no later response rotates it to a
different value), every subsequent request of the same client instance
carries the `mcp-session-id: v` header; the capture is a function of the
response alone (it happens on every response, successful or not); a fresh
client holds no session identifier, and any identifier ever held was taken
from some response's header — never invented client-side. -/
theorem mcp_session_header_echoed (rt : JsRuntime) (net : Nat → FetchOutcome)
    (options : McpClientOptions) (payloads : List (JsonRpcRequest × Bool))
    (i : Nat) (v : String) (hv : v ≠ "")
    (hheader : headerOf (net i) = some v)
    (hlater : ∀ j, i < j → headerOf (net j) = none ∨ headerOf (net j) = some v) :
    (∀ k (hk : k < (runClient rt net options payloads).calls.length), i < k →
      ("mcp-session-id", v) ∈ (runClient rt net options payloads).calls[k].headers)
    ∧ (∀ (ctx : ExecCtx) (p : JsonRpcRequest) (ign : Bool),
        (execute rt net ctx p ign).1.st.sessionId
          = stepSession ctx.st.sessionId (net ctx.calls.length))
    ∧ (mkClient options).sessionId = none
    ∧ (∀ n w, sessionAfter net n = some w → ∃ m, m < n ∧ headerOf (net m) = some w) := by
  refine ⟨?_, fun ctx p ign => execute_st_sessionId rt net ctx p ign, rfl,
    sessionAfter_from_response net⟩
  have htr : (runClient rt net options payloads).calls
      = tracFrom net (mkClient options) 0 payloads := by
    have := runFrom_trace rt net (mkClient options) payloads
      ⟨mkClient options, []⟩ rfl rfl rfl rfl
    simpa [runClient] using this
  intro k hk hik
  have hk2 : k < (tracFrom net (mkClient options) 0 payloads).length := by
    rw [← htr]; exact hk
  have hget := tracFrom_getElem net (mkClient options) payloads 0 k hk2
  have hsess : sessionAfter net (0 + k) = some v := by
    rw [Nat.zero_add]
    exact sessionAfter_of_header net i v hheader hlater k hik
  simp only [htr]
  rw [hget.2, hsess]
  exact mem_headersFor_session _ _ v hv

/-- C1 witness: on a network that issues `sess-1` on every response, the
third request of the `initialize`; notification; `ping` sequence carries the
session header. -/
theorem mcp_session_header_echoed_witness :
    ∃ hk : 2 < (runClient rtTriv netSess ⟨"http://g/", none, none, none⟩ payloadsW).calls.length,
      ("mcp-session-id", "sess-1")
        ∈ (runClient rtTriv netSess ⟨"http://g/", none, none, none⟩ payloadsW).calls[2].headers := by
  have h := mcp_session_header_echoed rtTriv netSess ⟨"http://g/", none, none, none⟩ payloadsW
    0 "sess-1" (by decide) rfl (fun j _ => Or.inr rfl)
  exact ⟨by decide, h.1 2 (by decide) (by decide)⟩

theorem stripTrailingSlash_append_slash (u : String)
    (h : u.data.getLast? = some '/') : stripTrailingSlash u ++ "/" = u := by
  unfold stripTrailingSlash
  rw [if_pos h]
  apply String.ext
  rw [String.data_append]
  show u.data.dropLast ++ ['/'] = u.data
  have hne : u.data ≠ [] := by
    intro h0
    rw [h0] at h
    cases h
  have hlast : u.data.getLast hne = '/' := by
    have h2 := List.getLast?_eq_getLast u.data hne
    rw [h2] at h
    exact Option.some.inj h
  calc u.data.dropLast ++ ['/']
      = u.data.dropLast ++ [u.data.getLast hne] := by rw [hlast]
    _ = u.data := List.dropLast_append_getLast hne

theorem stripTrailingSlash_double_slash (p : String) :
    stripTrailingSlash (p ++ "//") = p ++ "/" := by
  have hdata : (p ++ "//").data = (p.data ++ ['/']) ++ ['/'] := by
    rw [String.data_append]
    simp
  unfold stripTrailingSlash
  rw [hdata, List.getLast?_concat, if_pos rfl]
  apply String.ext
  show ((p.data ++ ['/']) ++ ['/']).dropLast = (p ++ "/").data
  rw [List.dropLast_concat, String.data_append]

/-- C10: every HTTP request of a client instance targets exactly
`stripTrailingSlash options.url`, the constructor-normalized URL: one
trailing `/` is removed when present, nothing otherwise, and a URL ending in
`//` keeps one trailing slash; the URL never changes over the instance's
request trace. -/
theorem client_url_normalization (rt : JsRuntime) (net : Nat → FetchOutcome)
    (options : McpClientOptions) (payloads : List (JsonRpcRequest × Bool)) :
    (∀ req ∈ (runClient rt net options payloads).calls,
      req.url = stripTrailingSlash options.url)
    ∧ (options.url.data.getLast? = some '/' →
        stripTrailingSlash options.url ++ "/" = options.url)
    ∧ (options.url.data.getLast? ≠ some '/' →
        stripTrailingSlash options.url = options.url)
    ∧ (∀ p : String, options.url = p ++ "//" →
        stripTrailingSlash options.url = p ++ "/") := by
  refine ⟨?_, stripTrailingSlash_append_slash options.url, ?_, ?_⟩
  · intro req hreq
    have htr : (runClient rt net options payloads).calls
        = tracFrom net (mkClient options) 0 payloads := by
      have := runFrom_trace rt net (mkClient options) payloads
        ⟨mkClient options, []⟩ rfl rfl rfl rfl
      simpa [runClient] using this
    rw [htr] at hreq
    obtain ⟨k, hk, hkeq⟩ := List.mem_iff_getElem.mp hreq
    have := (tracFrom_getElem net (mkClient options) payloads 0 k hk).1
    rw [hkeq] at this
    exact this
  · intro h
    unfold stripTrailingSlash
    rw [if_neg h]
  · intro p hp
    rw [hp]
    exact stripTrailingSlash_double_slash p

/-- C10 witness: a URL ending in `//` keeps one trailing slash, and a
normalized instance issues its requests against the stripped URL. -/
theorem client_url_normalization_witness :
    stripTrailingSlash "http://x//" = "http://x" ++ "/" :=
  (client_url_normalization rtTriv netSess ⟨"http://x//", none, none, none⟩ []).2.2.2
    "http://x" (by decide)

/-! Claim C3. -/

/-- C3 counterexample: the claim says no failure of a model-issued tool call
escapes the tool-execution step.  But a `registry_task` call running `/ping`
against an unreachable gateway propagates the transport error out of
`executeMappedTool` (the `task` branch has no try/catch), so the exception
reaches the agent loop. -/
theorem dispatcher_no_throw_claim_false :
    mapToolCall "registry_task" (.obj [("command", .str "/ping")])
      = ⟨.task, "registry_task", .obj [("command", .str "/ping")]⟩
    ∧ (executeMappedTool rtTriv netDown resolverT runnerT
        (mapToolCall "registry_task" (.obj [("command", .str "/ping")]))
        "http://gw" ctxT).2
      = .error "connect ECONNREFUSED" := by
  exact ⟨by decide, by decide⟩

/-- C3 (amended): model-issued `mcp_command` tool calls never raise — every
failure of `executeMcpCommand` is captured as `\x7boutput, isError: true\x7d`
— and unknown tool names yield captured error results; `registry_task` calls
return the slash-command result when it completes, but (per the
counterexample) errors raised inside the slash execution propagate. -/
theorem tool_failures_captured_amended (rt : JsRuntime) (net : Nat → FetchOutcome)
    (resolver : TaskResolver) (runner : TaskRunner)
    (gatewayUrl : String) (context : TaskContext) :
    (∀ name input, ∃ r,
        (executeMappedTool rt net resolver runner ⟨.mcp, name, input⟩ gatewayUrl context).2
          = .ok r)
    ∧ (∀ name input e, mcpCommandOf input ≠ "" →
        (executeMcpCommand rt net (mcpCommandOf input) gatewayUrl
            context.gatewayToken context.backendToken
            ((mcpToolNameOf input).map fun t => (t, mcpArgsOf input))).2 = .error e →
        (executeMappedTool rt net resolver runner ⟨.mcp, name, input⟩ gatewayUrl context).2
          = .ok ⟨e, true⟩)
    ∧ (∀ name input,
        (executeMappedTool rt net resolver runner ⟨.unknown, name, input⟩ gatewayUrl context).2
          = .ok ⟨"Unknown tool invocation: " ++ name, true⟩)
    ∧ (∀ name input s,
        (executeSlashCommand rt net resolver runner (taskCommandTextOf input) context).2
          = .ok s →
        (executeMappedTool rt net resolver runner ⟨.task, name, input⟩ gatewayUrl context).2
          = .ok ⟨String.intercalate "\n" s.lines, s.isError⟩) := by
  refine ⟨?_, ?_, ?_, ?_⟩
  · intro name input
    by_cases hc : mcpCommandOf input = ""
    · exact ⟨⟨"Missing command field", true⟩, by simp [executeMappedTool, hc]⟩
    · cases hres : executeMcpCommand rt net (mcpCommandOf input) gatewayUrl
          context.gatewayToken context.backendToken
          ((mcpToolNameOf input).map fun t => (t, mcpArgsOf input)) with
      | mk calls r =>
        cases r with
        | ok x =>
          exact ⟨⟨rt.pretty (.obj [("handshake", x.handshake), ("response", x.response)]), false⟩,
            by simp [executeMappedTool, hc, hres]⟩
        | error e => exact ⟨⟨e, true⟩, by simp [executeMappedTool, hc, hres]⟩
  · intro name input e hc herror
    cases hres : executeMcpCommand rt net (mcpCommandOf input) gatewayUrl
        context.gatewayToken context.backendToken
        ((mcpToolNameOf input).map fun t => (t, mcpArgsOf input)) with
    | mk calls r =>
      rw [hres] at herror
      simp only at herror
      subst herror
      simp [executeMappedTool, hc, hres]
  · intro name input
    simp [executeMappedTool]
  · intro name input s hslash
    cases hres : executeSlashCommand rt net resolver runner
        (taskCommandTextOf input) context with
    | mk calls r =>
      rw [hres] at hslash
      simp only at hslash
      subst hslash
      simp [executeMappedTool, hres]

/-- C3 witness: a failing mcp_command `ping` is captured as an error result
rather than raised. -/
theorem tool_failures_captured_amended_witness :
    (executeMappedTool rtTriv netDown resolverT runnerT
        ⟨.mcp, "mcp_command", .obj [("command", .str "ping")]⟩ "http://gw" ctxT).2
      = .ok ⟨"connect ECONNREFUSED", true⟩ :=
  (tool_failures_captured_amended rtTriv netDown resolverT runnerT "http://gw" ctxT).2.1
    "mcp_command" (.obj [("command", .str "ping")]) "connect ECONNREFUSED"
    (by decide) (by decide)

/-! Claim C4. -/

/-- C4 counterexample: the claim says a call invocation with an empty tool
name fails before any network request, including the session-establishing
`initialize`.  But a model-issued `mcp_command` `call` with no tool reaches
`executeMcpCommand` with no call options, which performs `initialize()` (two
fetches: the `initialize` request and the `initialized` notification) before
raising the validation error — which the mcp branch then captures. -/
theorem call_validation_claim_false :
    (executeMappedTool rtTriv netOkEmpty resolverT runnerT
        ⟨.mcp, "mcp_command", .obj [("command", .str "call")]⟩ "http://gw" ctxT).2
      = .ok ⟨"Tool name and args are required for /call.", true⟩
    ∧ ((executeMappedTool rtTriv netOkEmpty resolverT runnerT
        ⟨.mcp, "mcp_command", .obj [("command", .str "call")]⟩ "http://gw" ctxT).1.map
          fun r => r.payload.method)
      = ["initialize", "notifications/initialized"] := by
  exact ⟨by decide, by decide⟩

theorem clientInit_calls (rt : JsRuntime) (net : Nat → FetchOutcome) (ctx : ExecCtx) :
    ∃ t, (clientInit rt net ctx).1.calls = ctx.calls ++ t ∧ t ≠ [] := by
  have hexec := execute_calls rt net ⟨(nextRequestId ctx.st).1, ctx.calls⟩
    ⟨some (nextRequestId ctx.st).2, "initialize", some initParams⟩ false
  show ∃ t, (match execute rt net ⟨(nextRequestId ctx.st).1, ctx.calls⟩
      ⟨some (nextRequestId ctx.st).2, "initialize", some initParams⟩ false with
    | (ctx', .ok result) => (sendInitializedNotification rt net ctx', Except.ok result)
    | (ctx', .error e) => (ctx', Except.error e)).1.calls = ctx.calls ++ t ∧ t ≠ []
  cases hres : execute rt net ⟨(nextRequestId ctx.st).1, ctx.calls⟩
      ⟨some (nextRequestId ctx.st).2, "initialize", some initParams⟩ false with
  | mk ctx1 r =>
    rw [hres] at hexec
    cases r with
    | error e => exact ⟨_, hexec, by simp⟩
    | ok j =>
      have h1 : ctx1.calls = ctx.calls
          ++ [(⟨(nextRequestId ctx.st).1.url, buildHeaders (nextRequestId ctx.st).1,
                ⟨some (nextRequestId ctx.st).2, "initialize", some initParams⟩⟩ : HttpRequest)] :=
        hexec
      have hexec2 := execute_calls rt net ctx1 ⟨none, "notifications/initialized", none⟩ true
      refine ⟨[⟨(nextRequestId ctx.st).1.url, buildHeaders (nextRequestId ctx.st).1,
          ⟨some (nextRequestId ctx.st).2, "initialize", some initParams⟩⟩,
        ⟨ctx1.st.url, buildHeaders ctx1.st, ⟨none, "notifications/initialized", none⟩⟩], ?_, by simp⟩
      show (sendInitializedNotification rt net ctx1).calls = ctx.calls ++ _
      unfold sendInitializedNotification
      rw [hexec2, h1, List.append_assoc]
      rfl

/-- C4 (amended): the slash-command path (`executeCall`) rejects an empty
tool name with the validation error before any network request (its trace is
empty); but when a `call` reaches `executeMcpCommand` without call options —
as a model-issued `mcp_command` call with an empty tool name does — the
`initialize` handshake has already been issued (the request trace is never
empty) and the validation error is raised only afterwards. -/
theorem empty_tool_validation_amended (rt : JsRuntime) (net : Nat → FetchOutcome) :
    (∀ (context : TaskContext) (argsJson : Option String),
        executeCall rt net ⟨"", argsJson⟩ context
          = ([], .ok ⟨["Tool name is required for /call."], true⟩))
    ∧ (∀ (gatewayUrl : String) (gt bt : Option String) (handshake : Json),
        (clientInit rt net ⟨mkClient ⟨gatewayUrl, gt, bt, none⟩, []⟩).2 = .ok handshake →
        (executeMcpCommand rt net "call" gatewayUrl gt bt none).2
          = .error "Tool name and args are required for /call.")
    ∧ (∀ (gatewayUrl : String) (gt bt : Option String),
        (executeMcpCommand rt net "call" gatewayUrl gt bt none).1 ≠ []) := by
  refine ⟨?_, ?_, ?_⟩
  · intro context argsJson
    simp [executeCall]
  · intro gatewayUrl gt bt handshake hinit
    unfold executeMcpCommand
    cases hres : clientInit rt net ⟨mkClient ⟨gatewayUrl, gt, bt, none⟩, []⟩ with
    | mk ctx1 r =>
      rw [hres] at hinit
      simp only at hinit
      subst hinit
      rfl
  · intro gatewayUrl gt bt
    obtain ⟨t, ht, htne⟩ := clientInit_calls rt net ⟨mkClient ⟨gatewayUrl, gt, bt, none⟩, []⟩
    unfold executeMcpCommand
    cases hres : clientInit rt net ⟨mkClient ⟨gatewayUrl, gt, bt, none⟩, []⟩ with
    | mk ctx1 r =>
      rw [hres] at ht
      simp only [List.nil_append] at ht
      cases r with
      | error e =>
        show ctx1.calls ≠ []
        rw [ht]
        exact htne
      | ok handshake =>
        show ctx1.calls ≠ []
        rw [ht]
        exact htne

/-- C4 witness: with a healthy network, `executeMcpCommand "call"` without
call options raises the validation error after the handshake. -/
theorem empty_tool_validation_amended_witness :
    (executeMcpCommand rtTriv netOkEmpty "call" "http://gw" none none none).2
      = .error "Tool name and args are required for /call." :=
  (empty_tool_validation_amended rtTriv netOkEmpty).2.1 "http://gw" none none
    emptyEnvelope (by decide)

/-! Claim C2. -/

/-- C2 counterexample: with a provider that requests a tool call on every
turn (so the claim's hypothesis holds) but whose `registry_task` execution
fails on transport, `runAgentTurn` raises after the first provider call
instead of terminating after exactly 5 calls with the limit message. -/
theorem agent_loop_always_tool_claim_false :
    (∀ sys conv, toolUsesOf (providerCX sys conv) ≠ [])
    ∧ runAgentTurn providerCX execCX [] = .error "connect ECONNREFUSED" := by
  refine ⟨fun _ _ => ?_, by decide⟩
  show toolUsesOf [.toolUse "t1" "registry_task" (.obj [("command", .str "/ping")])] ≠ []
  decide

theorem runToolCalls_ok (exec : Nat → AgentToolInvocation → Except String ToolResult)
    (he : ∀ n inv, ∃ r, exec n inv = .ok r) :
    ∀ (calls : List (String × String × Json)) (ec : Nat)
      (conv : List ConversationEntry) (outs : List ToolOutput),
    ∃ z, runToolCalls exec calls ec conv outs = .ok z := by
  intro calls
  induction calls with
  | nil => intro ec conv outs; exact ⟨(ec, conv, outs), rfl⟩
  | cons c rest ih =>
    obtain ⟨id, name, input⟩ := c
    intro ec conv outs
    obtain ⟨r, hr⟩ := he ec (mapToolCall name input)
    obtain ⟨z, hz⟩ := ih (ec + 1)
      (conv ++ [(⟨"user", .toolResult id r.output⟩ : ConversationEntry)])
      (outs ++ [(⟨name, r.output, r.isError⟩ : ToolOutput)])
    refine ⟨z, ?_⟩
    show (match exec ec (mapToolCall name input) with
      | .error e => Except.error e
      | .ok result => runToolCalls exec rest (ec + 1)
          (conv ++ [(⟨"user", .toolResult id result.output⟩ : ConversationEntry)])
          (outs ++ [(⟨name, result.output, result.isError⟩ : ToolOutput)])) = .ok z
    rw [hr]
    exact hz

theorem agentLoop_cap (provider : String → List ConversationEntry → List Block)
    (exec : Nat → AgentToolInvocation → Except String ToolResult)
    (systemPrompt : String)
    (hp : ∀ sys conv, toolUsesOf (provider sys conv) ≠ [])
    (he : ∀ n inv, ∃ r, exec n inv = .ok r) :
    ∀ (fuel : Nat) (conv : List ConversationEntry) (ec : Nat)
      (fm : List AgentMessage) (outs : List ToolOutput) (pc : Nat),
    ∃ outs2, agentLoop provider exec systemPrompt fuel conv ec fm outs pc
      = .ok ⟨fm ++ [⟨.assistant, "Reached tool usage limit without final response."⟩],
             outs2, pc + fuel⟩ := by
  intro fuel
  induction fuel with
  | zero => intro conv ec fm outs pc; exact ⟨outs, by simp [agentLoop]⟩
  | succ fuel ih =>
    intro conv ec fm outs pc
    have hne := hp systemPrompt conv
    have hisEmpty : (toolUsesOf (provider systemPrompt conv)).isEmpty = false := by
      cases h : (toolUsesOf (provider systemPrompt conv)).isEmpty with
      | false => rfl
      | true => exact absurd (List.isEmpty_iff.mp h) hne
    obtain ⟨z, hz⟩ := runToolCalls_ok exec he (toolUsesOf (provider systemPrompt conv)) ec
      (conv ++ [⟨"assistant", .blocks (provider systemPrompt conv)⟩]) outs
    obtain ⟨ec2, conv2, outs2⟩ := z
    obtain ⟨outs3, h3⟩ := ih conv2 ec2 fm outs2 (pc + 1)
    refine ⟨outs3, ?_⟩
    show (if (toolUsesOf (provider systemPrompt conv)).isEmpty = true then
        Except.ok (AgentResult.mk
          (fm ++ [⟨.assistant, String.intercalate "\n" (textsOf (provider systemPrompt conv))⟩])
          outs (pc + 1))
      else
        match runToolCalls exec (toolUsesOf (provider systemPrompt conv)) ec
            (conv ++ [⟨"assistant", .blocks (provider systemPrompt conv)⟩]) outs with
        | .error e => Except.error e
        | .ok (execCount', conversation', toolOutputs') =>
          agentLoop provider exec systemPrompt fuel conversation'
            execCount' fm toolOutputs' (pc + 1)) = _
    rw [hisEmpty]
    simp only [Bool.false_eq_true, if_false]
    rw [hz]
    show agentLoop provider exec systemPrompt fuel conv2 ec2 fm outs2 (pc + 1) = _
    rw [h3]
    have harith : pc + 1 + fuel = pc + (fuel + 1) := by omega
    rw [harith]

/-- C2 (amended): for every provider that returns at least one tool-use
block on every turn and every tool executor that returns a result rather
than raising, `runAgentTurn` terminates after exactly 5 provider calls with
the fixed limit message as its only final message.  (As the counterexample
shows, the no-exception clause of the original claim additionally requires
the executor hypothesis, because `registry_task` failures propagate.) -/
theorem agent_loop_cap_amended (provider : String → List ConversationEntry → List Block)
    (exec : Nat → AgentToolInvocation → Except String ToolResult)
    (history : List AgentMessage)
    (hp : ∀ sys conv, toolUsesOf (provider sys conv) ≠ [])
    (he : ∀ n inv, ∃ r, exec n inv = .ok r) :
    ∃ outs, runAgentTurn provider exec history
      = .ok ⟨[⟨.assistant, "Reached tool usage limit without final response."⟩], outs, 5⟩ := by
  obtain ⟨outs, h⟩ := agentLoop_cap provider exec (systemPromptOf history) hp he 5
    (initialConversation history) 0 [] [] 0
  exact ⟨outs, by simpa [runAgentTurn] using h⟩

/-- C2 witness: a provider always requesting an unknown tool (whose execution
returns a captured error) drives the loop to the cap. -/
theorem agent_loop_cap_amended_witness :
    ∃ outs, runAgentTurn providerTool execOkT []
      = .ok ⟨[⟨.assistant, "Reached tool usage limit without final response."⟩], outs, 5⟩ :=
  agent_loop_cap_amended providerTool execOkT []
    (fun _ _ => by show toolUsesOf [.toolUse "t" "x" .null] ≠ []; decide)
    (fun _ _ => ⟨⟨"r", false⟩, rfl⟩)

/-! Claim C9. -/

/-- C9 counterexample: on a first-turn response with the two text blocks `a`
and `b` and no tool use, the loop ends after one provider call with the
message `a\nb` — the blocks joined with a newline — which differs from their
concatenation `ab`. -/
theorem text_concat_claim_false :
    runAgentTurn providerTexts execOkT [⟨.user, "hi"⟩]
      = .ok ⟨[⟨.assistant, "a\nb"⟩], [], 1⟩
    ∧ textsOf (providerTexts (systemPromptOf [⟨.user, "hi"⟩])
        (initialConversation [⟨.user, "hi"⟩])) = ["a", "b"]
    ∧ ("a\nb" : String) ≠ "a" ++ "b" := by
  exact ⟨by decide, by decide, by decide⟩

theorem agentLoop_no_tools (provider : String → List ConversationEntry → List Block)
    (exec : Nat → AgentToolInvocation → Except String ToolResult)
    (systemPrompt : String) (fuel : Nat) (conv : List ConversationEntry)
    (ec : Nat) (fm : List AgentMessage) (outs : List ToolOutput) (pc : Nat)
    (hp : toolUsesOf (provider systemPrompt conv) = []) :
    agentLoop provider exec systemPrompt (fuel + 1) conv ec fm outs pc
      = .ok ⟨fm ++ [⟨.assistant, String.intercalate "\n" (textsOf (provider systemPrompt conv))⟩],
             outs, pc + 1⟩ := by
  have hEmpty : (toolUsesOf (provider systemPrompt conv)).isEmpty = true := by
    rw [List.isEmpty_iff]
    exact hp
  show (if (toolUsesOf (provider systemPrompt conv)).isEmpty = true then
      Except.ok (AgentResult.mk
        (fm ++ [⟨.assistant, String.intercalate "\n" (textsOf (provider systemPrompt conv))⟩])
        outs (pc + 1))
    else
      match runToolCalls exec (toolUsesOf (provider systemPrompt conv)) ec
          (conv ++ [⟨"assistant", .blocks (provider systemPrompt conv)⟩]) outs with
      | .error e => Except.error e
      | .ok (execCount', conversation', toolOutputs') =>
        agentLoop provider exec systemPrompt fuel conversation'
          execCount' fm toolOutputs' (pc + 1)) = _
  rw [hEmpty]
  simp

/-- C9 (amended): when the first provider response carries zero tool-use
blocks, `runAgentTurn` ends after exactly one provider call with exactly one
assistant message whose text is the response's text blocks joined, in order,
with newline separators (not their plain concatenation). -/
theorem text_join_amended (provider : String → List ConversationEntry → List Block)
    (exec : Nat → AgentToolInvocation → Except String ToolResult)
    (history : List AgentMessage)
    (hp : toolUsesOf (provider (systemPromptOf history) (initialConversation history)) = []) :
    runAgentTurn provider exec history
      = .ok ⟨[⟨.assistant, String.intercalate "\n"
          (textsOf (provider (systemPromptOf history) (initialConversation history)))⟩],
          [], 1⟩ := by
  have h := agentLoop_no_tools provider exec (systemPromptOf history) 4
    (initialConversation history) 0 [] [] 0 hp
  simpa [runAgentTurn] using h

/-- C9 witness: a single text block `hello` comes back as the sole assistant
message after one provider call. -/
theorem text_join_amended_witness :
    runAgentTurn providerSingle execOkT [] = .ok ⟨[⟨.assistant, "hello"⟩], [], 1⟩ := by
  have h := text_join_amended providerSingle execOkT [] (by decide)
  exact h

end McpGw
